import Mathlib

/-!
Verification development for the `deno911/serialize` library.

The definitions below are a shallow embedding of `src/_util.ts`,
`src/serialize.ts` and `src/deserialize.ts`.  JavaScript strings are
modelled as `String`/`List Char`, JavaScript numbers restricted to the
integers that the claims exercise, and the mutable sink registry of a
`serialize` run is threaded explicitly through the traversal.  Each
definition cites the source lines it translates.
-/

/-! ## `src/_util.ts` -/

/-- JavaScript `\s` character class membership (whitespace characters),
used by `String.prototype.trim`, the `is` whitespace predicates and the
regular expressions in `_util.ts`.  Restricted to the whitespace
characters representable in this embedding. -/
def isJsSpace (c : Char) : Bool :=
  c = ' ' || c = '\t' || c = '\n' || c = '\r' ||
  c.toNat = 0x0b || c.toNat = 0x0c || c.toNat = 0xa0 ||
  c.toNat = 0x2028 || c.toNat = 0x2029 || c.toNat = 0xfeff

/-- JavaScript `String.prototype.trim` on a character list. -/
def jsTrimL (l : List Char) : List Char :=
  ((l.dropWhile isJsSpace).reverse.dropWhile isJsSpace).reverse

/-- The digit alphabet of JavaScript `Number.prototype.toString(radix)`:
`0-9` then `a-z`. -/
def jsDigitChar (d : Nat) : Char :=
  if d < 10 then Char.ofNat (48 + d) else Char.ofNat (87 + d)

/-- Digits of `n` in base `radix` (most significant first), as rendered by
JavaScript `Number.prototype.toString(radix)` for a non-negative integer.
`fuel` bounds the recursion; callers pass `n + 1`, which always suffices. -/
def jsRadixDigits (radix : Nat) : Nat → Nat → List Char
  | 0, _ => []
  | fuel + 1, n =>
    if n < radix then [jsDigitChar n]
    else jsRadixDigits radix fuel (n / radix) ++ [jsDigitChar (n % radix)]

/-- JavaScript `Number.prototype.toString(radix)` for a non-negative
integer. -/
def jsNatToStringBase (radix n : Nat) : String :=
  String.mk (jsRadixDigits radix (n + 1) n)

/-- `_util.ts` line 96-103, `generateUID(length, radix)`: each random byte
is rendered with `Number.prototype.toString(radix)` and the pieces are
concatenated.  The byte values drawn from `crypto.getRandomValues` are the
`bytes` argument here. -/
def generateUID (bytes : List Nat) (radix : Nat) : String :=
  bytes.foldl (fun result b => result ++ jsNatToStringBase radix b) ""

/-- One sample of `crypto.getRandomValues(new Uint8Array(16))`.  The
concrete values are irrelevant to every theorem below; what matters is
that `_util.ts` line 5 draws them exactly once, at module load. -/
def cryptoSampleBytes : List Nat :=
  [12, 251, 3, 177, 94, 22, 209, 8, 133, 61, 250, 47, 101, 19, 72, 230]

/-- `_util.ts` line 5: `export const UID = generateUID(UID_LENGTH, 36)`.
`UID` is a module-scoped constant: it is computed once when `_util.ts` is
evaluated and every later reference — from any `serialize` invocation,
top-level or nested — reads this same binding. -/
def UID : String := generateUID cryptoSampleBytes 36

/-- The Run ID used by the `call`-th `serialize` invocation of a load.
`serialize.ts` interpolates the imported module constant `UID` into every
placeholder (lines 351, 364, 372, …) and into `RE.PLACEHOLDER`
(`_util.ts` lines 56-59); no per-invocation identifier exists, so the
function is constant in `call`. -/
def runIdOfInvocation (_call : Nat) : String := UID

/-- Placeholder token text built by the `call`-th invocation for category
tag `tag` and sink index `i`, from the template literal
`` `@__${SYMBOL.X}-${UID}-${index}__@` `` in `serialize.ts`. -/
def placeholderTokenOfInvocation (call : Nat) (tag : String) (i : Nat) : String :=
  "@__" ++ tag ++ "-" ++ runIdOfInvocation call ++ "-" ++ toString i ++ "__@"

/-- The canonical RegExp flag characters `dgimsuy`
(`_util.ts` line 142, the class `[^dgimsuy]`). -/
def isFlagChar (c : Char) : Bool :=
  c = 'd' || c = 'g' || c = 'i' || c = 'm' || c = 's' || c = 'u' || c = 'y'

/-- `_util.ts` lines 141-144, `validateRegExpFlags(flags)`:
`String(flags).toLowerCase().trim().replace(/[^dgimsuy]/g, "")`, then
`f.length > 0 ? f : ""`.  `toLowerCase` is modelled per character. -/
def validateRegExpFlags (flags : String) : String :=
  let f := String.mk ((jsTrimL (flags.toList.map Char.toLower)).filter isFlagChar)
  if f.length > 0 then f else ""

/-! ## Sorting (`serialize.ts` lines 579-596, `maybeSort`) -/

/-- Result of comparing two decimal string renderings with JavaScript's
default (code-unit lexicographic) comparison; used when `Array.prototype.sort`
receives no comparator.  Returns a negative, zero or positive integer. -/
def jsDefaultCompareInt (a b : Int) : Int :=
  if toString a < toString b then -1 else if toString b < toString a then 1 else 0

/-- Insert `x` after every element `y` of an already-sorted list with
`cmp y x ≤ 0`; together with `jsSortWith` this models the stable sort of
`Array.prototype.sort` / `Array.prototype.toSorted`. -/
def jsSortInsert (cmp : Int → Int → Int) (x : Int) : List Int → List Int
  | [] => [x]
  | y :: ys => if cmp y x ≤ 0 then y :: jsSortInsert cmp x ys else x :: y :: ys

/-- Stable comparator sort (elements are taken left to right, each placed
after its `≤`-predecessors). -/
def jsSortWith (cmp : Int → Int → Int) (l : List Int) : List Int :=
  l.foldl (fun acc x => jsSortInsert cmp x acc) []

/-- The options record of `serialize.ts` lines 24-123 restricted to the
fields this embedding exercises.  `space` is modelled as the numeric form
of the option and `sortCompareFn` as an integer comparator. -/
structure SerializeOptions where
  arrayFrom : Bool := true
  includeFunction : Bool := true
  includeGetters : Bool := false
  includeHidden : Bool := false
  includeSymbols : Bool := true
  isJSON : Bool := false
  literalBigInt : Bool := false
  literalRegExp : Bool := false
  silent : Bool := true
  sorted : Bool := false
  sortCompareFn : Option (Int → Int → Int) := none
  space : Nat := 0
  /-- models the source's `unsafe` option (the word is reserved in Lean) -/
  unsafeSkipEscape : Bool := false

/-- `serialize.ts` lines 125-138: the defaults every call starts from. -/
def defaultOptions : SerializeOptions := {}

/-- `serialize.ts` lines 579-596, `maybeSort(arr)`: copies the array and
sorts the copy only when `options.sorted === true`, passing
`options.sortCompareFn || undefined` as the comparator (an absent
comparator falls back to JavaScript's default string comparison).
The `toSorted`/`sort` method choice returns the same sorted copy either
way and is not distinguished here. -/
def maybeSort (options : SerializeOptions) (arr : List Int) : List Int :=
  let shouldSort := options.sorted == true
  let copy := arr
  if shouldSort then
    jsSortWith (options.sortCompareFn.getD jsDefaultCompareInt) copy
  else copy

/-! ## Function-source classification (`_util.ts` RE, `serialize.ts` serializeFunc) -/

/-- JavaScript `\w` / the explicit classes `[a-zA-Z0-9_]` used by the
`RE` patterns (ASCII letters, digits, underscore). -/
def isWordChar (c : Char) : Bool := c.isAlphanum || c = '_'

/-- Characters excluded by `.` in a JavaScript regular expression without
the `s` flag (the line-terminator set). -/
def isJsLineTerm (c : Char) : Bool :=
  c = '\n' || c = '\r' || c.toNat = 0x2028 || c.toNat = 0x2029

/-- Helper for `RE.NATIVE`: if the text starting here matches
`\{[\s\n]*\[native code\][\s\n]*\}`, the length of the match
(group 0), else `none`.  The match is deterministic: both `[\s\n]*`
runs are maximal, since giving a whitespace character back can never
make the following literal match. -/
def matchNativeLen : List Char → Option Nat
  | '{' :: rest =>
    let ws1 := rest.takeWhile isJsSpace
    let r1 := rest.dropWhile isJsSpace
    if r1.take 13 = "[native code]".toList then
      let r2 := r1.drop 13
      let ws2 := r2.takeWhile isJsSpace
      match r2.dropWhile isJsSpace with
      | '}' :: _ => some (ws1.length + ws2.length + 15)
      | _ => none
    else none
  | _ => none

/-- Forward scan of the regex engine: the end position of the first
match of `RE.NATIVE` at or after `pos`, where `l` is the text from `pos`
on and the returned position is absolute. -/
def nativeScanFrom : Nat → List Char → Option Nat
  | pos, l =>
    match matchNativeLen l with
    | some len => some (pos + len)
    | none =>
      match l with
      | [] => none
      | _ :: rest => nativeScanFrom (pos + 1) rest

/-- `RE.NATIVE.test(s)` (`_util.ts` line 49).  `RE.NATIVE` is the
module-level regex `/\{[\s\n]*\[native code\][\s\n]*\}/dg`; because
of the `g` flag, `test` is stateful (ECMA-262 `RegExpBuiltinExec`): the
scan starts at the regex's persistent `lastIndex`, on success
`lastIndex` becomes the end of the match, and on failure — including
`lastIndex` beyond the text — it resets to `0`.  The argument is the
state on entry, the second component of the result the state on exit. -/
def reNativeTest (lastIndex : Nat) (s : String) : Bool × Nat :=
  let chars := s.toList
  if lastIndex > chars.length then (false, 0)
  else
    match nativeScanFrom lastIndex (chars.drop lastIndex) with
    | some matchEnd => (true, matchEnd)
    | none => (false, 0)

/-- Scan every position of a list together with the character preceding
it, returning whether the predicate holds anywhere (the shape of a global
regex `test` with a lookbehind). -/
def scanWithPrev (p : Option Char → List Char → Bool) : Option Char → List Char → Bool
  | prev, [] => p prev []
  | prev, c :: rest => p prev (c :: rest) || scanWithPrev p (some c) rest

/-- Helper for `RE.PURE`: from this position, `\bfunction\b.*?\(`
(a word-bounded `function` keyword with a `(` later on the same line). -/
def matchPureAt (prev : Option Char) (l : List Char) : Bool :=
  (match prev with
   | some c => !isWordChar c
   | none => true) &&
  l.take 8 = "function".toList &&
  (let rest := l.drop 8
   (match rest.head? with
    | some c => !isWordChar c
    | none => true) &&
   hasParenOnLine rest)
where
  /-- is there a `(` before any line terminator? -/
  hasParenOnLine : List Char → Bool
    | [] => false
    | '(' :: _ => true
    | c :: r => if isJsLineTerm c then false else hasParenOnLine r

/-- `_util.ts` line 50, `RE.PURE.test`. -/
def testPure (s : String) : Bool := scanWithPrev matchPureAt none s.toList

/-- Helper for `RE.ARROW`: is there a `=>` ahead with no line terminator
in between (the lazy `.*?=>` after the lookbehind)? -/
def hasArrowOnLine : List Char → Bool
  | '=' :: '>' :: _ => true
  | c :: r => if isJsLineTerm c then false else hasArrowOnLine r
  | [] => false

/-- Helper for `RE.ARROW`: lookbehind `(?<=[a-zA-Z0-9_\$]|[)])` plus
`.*?=>.*?` from this position. -/
def matchArrowAt (prev : Option Char) (l : List Char) : Bool :=
  (match prev with
   | some c => isWordChar c || c = '$' || c = ')'
   | none => false) && hasArrowOnLine l

/-- `_util.ts` line 48, `RE.ARROW.test`. -/
def testArrow (s : String) : Bool := scanWithPrev matchArrowAt none s.toList

/-- `_util.ts` line 62: `RESERVED = ["*", "async", "get", "set"]`. -/
def RESERVED : List String := ["*", "async", "get", "set"]

/-- JavaScript `String.prototype.indexOf` for a single character:
the first index, or `-1`. -/
def jsIndexOfChar (l : List Char) (c : Char) : Int :=
  match l.findIdx? (· = c) with
  | some n => (n : Int)
  | none => -1

/-- Clamp a JavaScript `slice` argument to `0 … len` (negative values
count from the end). -/
def jsSliceClamp (len : Nat) (i : Int) : Nat :=
  if i < 0 then len - (min (-i).toNat len) else min i.toNat len

/-- JavaScript `String.prototype.slice(a, b)` on a character list. -/
def jsSlice (l : List Char) (a b : Int) : List Char :=
  (l.take (jsSliceClamp l.length b)).drop (jsSliceClamp l.length a)

/-- JavaScript `String.prototype.slice(a)` (one-argument form). -/
def jsSliceFrom (l : List Char) (a : Int) : List Char :=
  jsSlice l a (l.length : Int)

/-- JavaScript `String.prototype.split(sep)` for a one-character
separator (keeps empty segments, like the source's `split(" ")`). -/
def jsSplitOnChar (sep : Char) : List Char → List (List Char)
  | [] => [[]]
  | c :: r =>
    if c = sep then [] :: jsSplitOnChar sep r
    else
      match jsSplitOnChar sep r with
      | t :: ts => (c :: t) :: ts
      | [] => [[c]]

/-- One pass of `serializedFn.replaceAll(/(?<=\S)(=>)(?=\S)/g, " $1 ")`
(`serialize.ts` line 505): pad every arrow that touches non-space on both
sides.  `fuel` bounds the scan (always called with the list length). -/
def arrowSpaceAux : Nat → Option Char → List Char → List Char
  | 0, _, l => l
  | _ + 1, _, [] => []
  | fuel + 1, prev, '=' :: '>' :: rest =>
    if (match prev with
        | some p => !isJsSpace p
        | none => false) &&
       (match rest.head? with
        | some n => !isJsSpace n
        | none => false) then
      ' ' :: '=' :: '>' :: ' ' :: arrowSpaceAux fuel (some '>') rest
    else '=' :: arrowSpaceAux fuel (some '=') ('>' :: rest)
  | fuel + 1, _, c :: rest => c :: arrowSpaceAux fuel (some c) rest

/-- One pass of
`serializedFn.replaceAll(/(?<=\S)[ ]*(=>)[ ]*(?=\S)/g, "$1")`
(`serialize.ts` line 507): drop the spaces around such an arrow. -/
def arrowTightAux : Nat → Option Char → List Char → List Char
  | 0, _, l => l
  | _ + 1, _, [] => []
  | fuel + 1, prev, c :: rest =>
    let attempt : Option (List Char × Char) :=
      match prev with
      | some p =>
        if isJsSpace p then none
        else
          match (c :: rest).dropWhile (· = ' ') with
          | '=' :: '>' :: r2 =>
            let sp2 := r2.takeWhile (· = ' ')
            let r3 := r2.dropWhile (· = ' ')
            match r3.head? with
            | some n =>
              if isJsSpace n then none
              else some (r3, if sp2 = [] then '>' else ' ')
            | none => none
          | _ => none
      | none => none
    match attempt with
    | some (remaining, lastCh) => '=' :: '>' :: arrowTightAux fuel (some lastCh) remaining
    | none => c :: arrowTightAux fuel (some c) rest

/-- JavaScript runtime error values raised by the modelled code paths. -/
inductive JsError where
  | typeError (msg : String)
  | rangeError (msg : String)
  deriving DecidableEq, Repr

/-- `serialize.ts` lines 471-541, `serializeFunc(fn)`, with the one
piece of mutable module state it touches made explicit: the
`RE.NATIVE.test(serializedFn)` call on line 487 reads and updates the
`g`-flagged regex's persistent `lastIndex` (see `reNativeTest`); the
test runs first on every path, so the state is updated on every call.
`nativeLastIndex` is that state on entry, the second component of the
result the state on exit.  `RE.PURE` and `RE.ARROW` carry no `g` flag,
so their `test` calls are genuinely stateless.  The argument is the
function's canonical source text
`Function.prototype.toString.call(fn)` (line 485) together with
`fn.name` (used only in the error message).  `normalize("NFC")` is the
identity on the texts in this model. -/
def serializeFuncS (options : SerializeOptions) (fnName serializedFn : String)
    (nativeLastIndex : Nat) : Except JsError String × Nat :=
  let (isNative, nativeLastIndex) := reNativeTest nativeLastIndex serializedFn
  if isNative then
    if options.silent then (.ok "undefined", nativeLastIndex)
    else
      (.error (.typeError ("Unable to serialize native function:\n\t" ++ fnName)),
       nativeLastIndex)
  else if testPure serializedFn then (.ok serializedFn, nativeLastIndex)
  else if testArrow serializedFn then
    if options.space ≠ 0 then
      (.ok (String.mk (arrowSpaceAux serializedFn.length none serializedFn.toList)),
       nativeLastIndex)
    else
      (.ok (String.mk (arrowTightAux serializedFn.length none serializedFn.toList)),
       nativeLastIndex)
  else
    let chars := serializedFn.toList
    let argIndex := jsIndexOfChar chars '('
    let defString := jsTrimL (jsSlice chars 0 argIndex)
    let defList := ((jsSplitOnChar ' ' defString).map String.mk).filter (·.length ≠ 0)
    let nonReservedSymbols := defList.filter (fun s => RESERVED.contains s)
    if nonReservedSymbols.length > 0 then
      ((.ok ((if defList.contains "async" then "async " else "") ++
           "function " ++
           String.mk ((String.join defList).toList.filter (· = '*')) ++
           String.mk (jsSliceFrom chars argIndex))),
       nativeLastIndex)
    else (.ok serializedFn, nativeLastIndex)

/-- `serializeFunc` as executed while `RE.NATIVE.lastIndex` is `0`: the
state of a fresh module load, restored whenever a test finds no match.
For a source text in which the native pattern never occurs the result
does not depend on the state at all. -/
def serializeFunc (options : SerializeOptions) (fnName serializedFn : String) :
    Except JsError String :=
  (serializeFuncS options fnName serializedFn 0).1

/-! ## The value universe and the tagging traversal

The claims under study exercise `serialize` on plain data (null,
undefined, booleans, integer numbers, strings, plain objects) and on
function values.  `JSValue` is that universe; `JSFields` is the ordered
own-property list of a plain object (all properties are enumerable,
configurable data properties, so the descriptor/getter handling of
`serialize.ts` lines 312-360 is vacuous here, and `origValue` — line 301
— coincides with the incoming value because nothing defines `toJSON`). -/

mutual
inductive JSValue where
  | vNull
  | vUndefined
  | vBool (b : Bool)
  | vInt (n : Int)
  | vStr (s : String)
  /-- a function value: its `name` and its canonical source text
  `Function.prototype.toString.call(fn)` -/
  | vFunc (name : String) (src : String)
  | vObj (fields : JSFields)
  deriving DecidableEq, Repr

inductive JSFields where
  | nil
  | cons (key : String) (value : JSValue) (rest : JSFields)
  deriving DecidableEq, Repr
end

/-- `typeof v === "function"` (`is.function`). -/
def isFunctionV : JSValue → Bool
  | .vFunc _ _ => true
  | _ => false

/-- `is.nullOrUndefined`. -/
def isNullOrUndefinedV : JSValue → Bool
  | .vNull => true
  | .vUndefined => true
  | _ => false

/-- `v === "string"` under `typeof` (`is.string`). -/
def isStringV : JSValue → Bool
  | .vStr _ => true
  | _ => false

/-- JavaScript `String(v)` for the values this model coerces (only the
null/undefined cases are reached by `serialize`). -/
def jsStringOf : JSValue → String
  | .vNull => "null"
  | .vUndefined => "undefined"
  | .vBool b => cond b "true" "false"
  | .vInt n => if n < 0 then "-" ++ jsNatToStringBase 10 n.natAbs else jsNatToStringBase 10 n.natAbs
  | .vStr s => s
  | .vFunc _ src => src
  | .vObj _ => "[object Object]"

/-- `_util.ts` lines 105-122, `deleteFunctions(obj)`: every own property
whose value is a function is removed from the object (the source redefines
it as configurable and then deletes it; the net effect on the plain
objects of this universe is removal).  Non-objects are untouched (they
have no own function-valued properties). -/
def deleteFunctions : JSValue → JSValue
  | .vObj fields => .vObj (dropFuncFields fields)
  | v => v
where
  dropFuncFields : JSFields → JSFields
    | .nil => .nil
    | .cons k v rest =>
      if isFunctionV v then dropFuncFields rest
      else .cons k v (dropFuncFields rest)

/-- The graph a caller observes after a traversal with
`includeFunction: false`: `deleteFunctions` applied to every object the
`JSON.stringify` walk visits (the root and, recursively, every remaining
object-valued property). -/
def deleteFunctionsRec : JSValue → JSValue
  | .vObj fields => .vObj (go fields)
  | v => v
where
  go : JSFields → JSFields
    | .nil => .nil
    | .cons k v rest =>
      if isFunctionV v then go rest
      else .cons k (deleteFunctionsRec v) (go rest)

/-- The sink registry `$` of `serialize.ts` lines 276-289 restricted to
the categories this universe can populate: the `SYMBOL.Function` list
(name and source text of each pushed function) and the length of the
`SYMBOL.Undefined` list (its entries are all `undefined`, so only the
insertion count is information). -/
structure Sinks where
  funcs : List (String × String) := []
  undefs : Nat := 0
  deriving DecidableEq, Repr

/-- All sink lists empty — `is.all(is.emptyArray, ...Object.values($))`
(`serialize.ts` line 575). -/
def Sinks.isEmpty (s : Sinks) : Bool :=
  s.funcs.isEmpty && s.undefs = 0

/-- Hexadecimal digit for JSON `\u00XX` escapes (upper case, as emitted
by JavaScript's `JSON.stringify`). -/
def hexDigit (d : Nat) : Char :=
  if d < 10 then Char.ofNat (48 + d) else Char.ofNat (55 + d)

/-- One character of ECMA-262 `QuoteJSONString`. -/
def jsonEscapeChar (c : Char) : List Char :=
  if c = '"' then ['\\', '"']
  else if c = '\\' then ['\\', '\\']
  else if c = '\n' then ['\\', 'n']
  else if c = '\r' then ['\\', 'r']
  else if c = '\t' then ['\\', 't']
  else if c.toNat = 8 then ['\\', 'b']
  else if c.toNat = 12 then ['\\', 'f']
  else if c.toNat < 32 then
    ['\\', 'u', '0', '0', hexDigit (c.toNat / 16), hexDigit (c.toNat % 16)]
  else [c]

/-- ECMA-262 `QuoteJSONString`: the JSON string literal for `s`. -/
def quoteL (s : List Char) : List Char :=
  '"' :: s.flatMap jsonEscapeChar ++ ['"']

/-- JavaScript `String(n)` for the integers of this universe, as a
character list. -/
def jsIntToL (n : Int) : List Char :=
  if n < 0 then '-' :: (jsNatToStringBase 10 n.natAbs).toList
  else (jsNatToStringBase 10 n.natAbs).toList

/-- `SYMBOL.Function = "F"` and `SYMBOL.Undefined = "U"`
(`_util.ts` lines 8-26). -/
def SYMBOL_Function : Char := 'F'

/-- see `SYMBOL_Function` -/
def SYMBOL_Undefined : Char := 'U'

/-- Placeholder text from the template literal
`` `@__${SYMBOL.X}-${UID}-${index}__@` `` of `serialize.ts` (lines
414-427 for the Function and Undefined categories). -/
def mkPlaceholder (tag : Char) (i : Nat) : List Char :=
  "@__".toList ++ tag :: '-' :: UID.toList ++ '-' :: jsIntToL (i : Int) ++ "__@".toList

/-- Comma-join the encoded members of an object literal (the gap is empty
because this model fixes `space = 0`, the default). -/
def joinComma : List (List Char) → List Char
  | [] => []
  | [p] => p
  | p :: ps => p ++ ',' :: joinComma ps

mutual
/-- The `JSON.stringify(obj, replacer, 0)` walk of `serialize.ts` line
557 with the `replacer` of lines 296-463 inlined, on the universe above.
Returns the encoded text (or `none` where `JSON.stringify` would omit
the property — unreachable here, kept for the shape of the algorithm),
the value graph as the caller observes it afterwards (`deleteFunctions`
mutates the caller's objects in place), and the updated sink registry.

Per value the replacer performs, in source order: `deleteFunctions`
when `includeFunction` is off (lines 303-306) — because that removes the
function-valued properties of an object before `JSON.stringify`
enumerates its keys, it is realised below as `stringifyFields` dropping
exactly those properties of each walked object; the falsy pass-through
(lines 308-311), under which `null`, `false`, `0` and `""` are returned
unchanged and encoded as themselves; the object checks of lines 362-412
(RegExp/Date/Map/Set/sparse-Array/URL — all false in this universe, so
plain objects fall through and are walked); the function placeholder
(lines 414-420); the undefined placeholder (lines 422-428); and plain
pass-through (line 462). -/
def stringifyValue (options : SerializeOptions) (v : JSValue) (sinks : Sinks) :
    Option (List Char) × JSValue × Sinks :=
  match v with
  | .vNull => (some "null".toList, .vNull, sinks)
  | .vBool b => (some (cond b "true".toList "false".toList), .vBool b, sinks)
  | .vInt n => (some (jsIntToL n), .vInt n, sinks)
  | .vStr s => (some (quoteL s.toList), .vStr s, sinks)
  | .vFunc name src =>
    (some (quoteL (mkPlaceholder SYMBOL_Function sinks.funcs.length)),
     .vFunc name src,
     { sinks with funcs := sinks.funcs ++ [(name, src)] })
  | .vUndefined =>
    (some (quoteL (mkPlaceholder SYMBOL_Undefined sinks.undefs)),
     .vUndefined,
     { sinks with undefs := sinks.undefs + 1 })
  | .vObj fields =>
    let (parts, post, sinks) := stringifyFields options fields sinks
    (some ('{' :: joinComma parts ++ ['}']), .vObj post, sinks)

/-- Encode the own properties of a plain object in insertion order.
When `includeFunction` is off, `deleteFunctions` (called by the replacer
on line 305 before the walk descends) has removed every function-valued
property from the owner, so those properties are neither encoded nor
kept on the caller's object.  A property whose encoding is `none` would
be omitted from the text but remains on the caller's object. -/
def stringifyFields (options : SerializeOptions) (fs : JSFields) (sinks : Sinks) :
    List (List Char) × JSFields × Sinks :=
  match fs with
  | .nil => ([], .nil, sinks)
  | .cons k v rest =>
    if !options.includeFunction && isFunctionV v then
      stringifyFields options rest sinks
    else
      let (enc, vPost, sinks₁) := stringifyValue options v sinks
      let (parts, restPost, sinks₂) := stringifyFields options rest sinks₁
      match enc with
      | some e => ((quoteL k.toList ++ ':' :: e) :: parts, .cons k vPost restPost, sinks₂)
      | none => (parts, .cons k vPost restPost, sinks₂)
end

mutual
/-- Plain `JSON.stringify(obj, undefined, 0)` (the `isJSON: true` fast
path of `serialize.ts` line 557): no replacer runs, so functions and
undefined yield `undefined` (omitted inside objects, `none` at the
root) and nothing is mutated. -/
def plainStringify : JSValue → Option (List Char)
  | .vNull => some "null".toList
  | .vBool b => some (cond b "true".toList "false".toList)
  | .vInt n => some (jsIntToL n)
  | .vStr s => some (quoteL s.toList)
  | .vFunc _ _ => none
  | .vUndefined => none
  | .vObj fields => some ('{' :: joinComma (plainFields fields) ++ ['}'])

/-- see `plainStringify` -/
def plainFields : JSFields → List (List Char)
  | .nil => []
  | .cons k v rest =>
    match plainStringify v with
    | some e => (quoteL k.toList ++ ':' :: e) :: plainFields rest
    | none => plainFields rest
end

/-! ## Unsafe-character escaping (`_util.ts` lines 68-82) -/

/-- The characters matched by `RE.UNSAFE = /[<>\/  ]/dg`. -/
def isUnsafeChar (c : Char) : Bool :=
  c = '<' || c = '>' || c = '/' || c.toNat = 0x2028 || c.toNat = 0x2029

/-- `_util.ts` lines 78-82, `escapeUnsafeChars(char)`: look the character
up in `CHAR_MAP`, fall back to the character itself. -/
def escapeUnsafeChars (c : Char) : List Char :=
  if c = '<' then "\\u003C".toList
  else if c = '>' then "\\u003E".toList
  else if c = '/' then "\\u002F".toList
  else if c.toNat = 0x2028 then "\\u2028".toList
  else if c.toNat = 0x2029 then "\\u2029".toList
  else [c]

/-- `str.replace(RE.UNSAFE, escapeUnsafeChars)` (`serialize.ts` line
572): rewrite every unsafe character, leave the rest alone. -/
def escapeUnsafeL : List Char → List Char
  | [] => []
  | c :: r => (if isUnsafeChar c then escapeUnsafeChars c else [c]) ++ escapeUnsafeL r

/-! ## Placeholder reconstruction (`serialize.ts` lines 598-695) -/

/-- Match a literal character sequence at the head of a list, returning
what follows it. -/
def expectChars : List Char → List Char → Option (List Char)
  | [], l => some l
  | c :: cs, x :: xs => if x = c then expectChars cs xs else none
  | _ :: _, [] => none

/-- `SYMBOLS` (`_util.ts` lines 28-41): the twelve category tag letters,
in declaration order, as alternated inside `RE.PLACEHOLDER`. -/
def SYMBOLS : List Char := ['L', 'M', 'S', 'D', 'A', 'B', 'Y', 'R', 'F', 'I', 'U', 'G']

/-- Numeric value of a matched digit run. -/
def digitsToNat (ds : List Char) : Nat :=
  ds.foldl (fun acc c => acc * 10 + (c.toNat - 48)) 0

/-- Try to match `RE.PLACEHOLDER` —
`(\\)?"@__(L|M|S|D|A|B|Y|R|F|I|U|G)-${UID}-(\d+)__@"` — at the head of
the text.  On success returns the captured optional backslash, the
category tag, the index, and the unconsumed tail. -/
def tryMatchPlaceholderCore (l : List Char) : Option (Char × Nat × List Char) :=
  match expectChars ['"', '@', '_', '_'] l with
  | none => none
  | some r1 =>
    match r1 with
    | [] => none
    | tag :: r2 =>
      if SYMBOLS.contains tag then
        match expectChars ('-' :: UID.toList ++ ['-']) r2 with
        | none => none
        | some r3 =>
          let ds := r3.takeWhile Char.isDigit
          let r4 := r3.dropWhile Char.isDigit
          if ds = [] then none
          else
            match expectChars ['_', '_', '@', '"'] r4 with
            | none => none
            | some r5 => some (tag, digitsToNat ds, r5)
      else none

/-- see `tryMatchPlaceholderCore`; the leading `(\\)?` group. -/
def tryMatchPlaceholder (l : List Char) : Option (Bool × Char × Nat × List Char) :=
  match l with
  | '\\' :: rest =>
    match tryMatchPlaceholderCore rest with
    | some (tag, i, r) => some (true, tag, i, r)
    | none =>
      match tryMatchPlaceholderCore l with
      | some (tag, i, r) => some (false, tag, i, r)
      | none => none
  | _ =>
    match tryMatchPlaceholderCore l with
    | some (tag, i, r) => some (false, tag, i, r)
    | none => none

/-- `serialize.ts` lines 598-690, `replaceFn(str, backslash, key, i)`:
the per-match dispatch of the placeholder `replaceAll`.  `whole` is the
full matched text (returned untouched when the placeholder is preceded
by a backslash, line 607).  Of the twelve categories only the Function
and Undefined sinks can be populated in this universe:

* `SYMBOL.Function` (line 680-681) dispatches to `serializeFunc`; an
  index with no sink entry would reach `assert.function(undefined)`,
  which raises a `TypeError`.
* `SYMBOL.Undefined` (line 661) yields the literal `undefined`.
* `SYMBOL.Infinity` (line 663) returns the sink entry itself; with the
  sink empty that entry is `undefined`, which `replaceAll` coerces to
  the string `"undefined"`.
* every other tag reconstructs from an empty sink — the source faults on
  the missing entry (for example `new Date(undefined).toISOString()`
  raises a `RangeError`) — such a match can only come from adversarial
  string content that embeds the run's UID. -/
def replaceFn (options : SerializeOptions) (sinks : Sinks) (whole : List Char)
    (backslash : Bool) (tag : Char) (i : Nat) (nativeLastIndex : Nat) :
    Except JsError (List Char) × Nat :=
  if backslash then (.ok whole, nativeLastIndex)
  else if tag = SYMBOL_Function then
    match sinks.funcs.get? i with
    | some (name, src) =>
      let (r, li) := serializeFuncS options name src nativeLastIndex
      (r.map String.toList, li)
    | none =>
      -- `assert.function(undefined)` raises before the native test runs
      (.error (.typeError "assert.function: undefined is not a function"), nativeLastIndex)
  else if tag = SYMBOL_Undefined then (.ok "undefined".toList, nativeLastIndex)
  else if tag = 'I' then (.ok "undefined".toList, nativeLastIndex)
  else (.error (.rangeError "reconstruction from an empty sink"), nativeLastIndex)

/-- `str.replaceAll(RE.PLACEHOLDER, replaceFn)` (`serialize.ts` line
695): left-to-right, non-overlapping scan.  `fuel` bounds the recursion
and is initialised to the text length, which always suffices because a
match consumes at least one character.  `RE.NATIVE`'s `lastIndex` is
threaded through the consecutive `serializeFunc` dispatches of one
scan.  (`replaceAll` itself manages `RE.PLACEHOLDER`'s `lastIndex`,
starting the scan at `0` and resetting it afterwards, so that regex
contributes no cross-call state.) -/
def replaceAllPlaceholders (options : SerializeOptions) (sinks : Sinks) :
    Nat → Nat → List Char → Except JsError (List Char × Nat)
  | _, li, [] => .ok ([], li)
  | 0, li, l => .ok (l, li)
  | fuel + 1, li, c :: rest =>
    match tryMatchPlaceholder (c :: rest) with
    | some (bs, tag, i, remaining) =>
      let whole := (c :: rest).take ((c :: rest).length - remaining.length)
      match replaceFn options sinks whole bs tag i li with
      | (.error e, _) => .error e
      | (.ok rep, li) =>
        match replaceAllPlaceholders options sinks fuel li remaining with
        | .error e => .error e
        | .ok (tail, li) => .ok (rep ++ tail, li)
    | none =>
      match replaceAllPlaceholders options sinks fuel li rest with
      | .error e => .error e
      | .ok (tail, li) => .ok (c :: tail, li)

/-! ## Fix-up passes (`serialize.ts` lines 697-723) -/

/-- The identifier class `[a-zA-Z0-9_\$]` of `RE.GETTER_BROKEN` and
`RE.SHORT_BROKEN`. -/
def isIdentChar (c : Char) : Bool := c.isAlphanum || c = '_' || c = '$'

/-- The lookahead `(?=(async ?)?(\* ?)?(\1) \()` of `RE.SHORT_BROKEN`
for a captured name: the regex engine tries the `async`/`*` groups with
and without their optional trailing space and with the groups absent. -/
def shortLookahead (name : List Char) (l : List Char) : Bool :=
  ["async ".toList, "async".toList, []].any fun a =>
    ["* ".toList, "*".toList, []].any fun st =>
      (expectChars (a ++ st ++ name ++ [' ', '(']) l).isSome

/-- Try to match `RE.SHORT_BROKEN` —
`(?:"([a-zA-Z0-9_\$]+)"[:] ?)(?=(async ?)?(\* ?)?(\1) \()` — at the head
of the text; on success returns the tail from which scanning resumes
(the consumed `"name":` prefix is what `replaceAll(, "")` deletes).  The
optional space is consumed greedily; if a space is present but the
lookahead fails after it, the lookahead cannot succeed at the space
itself (its first character is never a space), so the match fails. -/
def tryMatchShortBroken (l : List Char) : Option (List Char) :=
  match l with
  | '"' :: r1 =>
    let name := r1.takeWhile isIdentChar
    let r2 := r1.dropWhile isIdentChar
    if name = [] then none
    else
      match r2 with
      | '"' :: ':' :: r3 =>
        let r4 := match r3 with
          | ' ' :: t => t
          | _ => r3
        if shortLookahead name r4 then some r4 else none
      | _ => none
  | _ => none

/-- `RE.SHORT_BROKEN.test(str)` (`serialize.ts` line 716). -/
def shortBrokenTest (l : List Char) : Bool :=
  l.tails.any fun t => (tryMatchShortBroken t).isSome

/-- `str.replaceAll(RE.SHORT_BROKEN, "")` (`serialize.ts` line 717). -/
def shortBrokenReplace : Nat → List Char → List Char
  | _, [] => []
  | 0, l => l
  | fuel + 1, c :: rest =>
    match tryMatchShortBroken (c :: rest) with
    | some remaining => shortBrokenReplace fuel remaining
    | none => c :: shortBrokenReplace fuel rest

/-- The lookahead `(?=get (\1) \(\))` of `RE.GETTER_BROKEN`. -/
def getterLookahead (name : List Char) (l : List Char) : Bool :=
  (expectChars ("get ".toList ++ name ++ [' ', '(', ')']) l).isSome

/-- Try to match `RE.GETTER_BROKEN` —
`(?:"([a-zA-Z0-9_\$]+)"[:] ?)(?=get (\1) \(\))` — at the head of the
text (see `tryMatchShortBroken` for the space handling). -/
def tryMatchGetterBroken (l : List Char) : Option (List Char) :=
  match l with
  | '"' :: r1 =>
    let name := r1.takeWhile isIdentChar
    let r2 := r1.dropWhile isIdentChar
    if name = [] then none
    else
      match r2 with
      | '"' :: ':' :: r3 =>
        let r4 := match r3 with
          | ' ' :: t => t
          | _ => r3
        if getterLookahead name r4 then some r4 else none
      | _ => none
  | _ => none

/-- `RE.GETTER_BROKEN.test(str)` (`serialize.ts` line 712). -/
def getterBrokenTest (l : List Char) : Bool :=
  l.tails.any fun t => (tryMatchGetterBroken t).isSome

/-- `str.replaceAll(RE.GETTER_BROKEN, "")` (`serialize.ts` line 713). -/
def getterBrokenReplace : Nat → List Char → List Char
  | _, [] => []
  | 0, l => l
  | fuel + 1, c :: rest =>
    match tryMatchGetterBroken (c :: rest) with
    | some remaining => getterBrokenReplace fuel remaining
    | none => c :: getterBrokenReplace fuel rest

/-- `_util.ts` lines 84-95, `getIndentSize(space)` for the numeric
`space` of this model (`+space` on a number is the identity; the
string-valued forms are outside the model). -/
def getIndentSize (space : Nat) : Nat := space

/-- `str.replaceAll(/^\s*(?=\]\))/mg, " ".repeat(indent))`
(`serialize.ts` line 722): at each line start, a whitespace run followed
by `])` is replaced by `indent` spaces.  `atStart` tracks whether the
scan is at a `^` position of the multiline pattern. -/
def indentFixup (indent : Nat) : Nat → Bool → List Char → List Char
  | _, _, [] => []
  | 0, _, l => l
  | fuel + 1, true, l =>
    let rest := l.dropWhile isJsSpace
    if (expectChars [']', ')'] rest).isSome then
      List.replicate indent ' ' ++ indentFixup indent fuel false rest
    else
      match l with
      | c :: r => c :: indentFixup indent fuel (c = '\n' || c = '\r') r
      | [] => []
  | fuel + 1, false, c :: r => c :: indentFixup indent fuel (c = '\n' || c = '\r') r

/-! ## Top-level orchestration (`serialize.ts` lines 254-725) -/

/-- `serialize(obj, options)` (`serialize.ts` lines 254-725) on this
universe, with the caller's options already merged over the defaults
(the overload resolution of lines 262-274).  The first component is the
returned text, or the raised error; the second is the argument graph as
the caller observes it after the call (`deleteFunctions` mutates the
caller's objects when `includeFunction` is off; the local rebinding of
`obj` on line 545 is not a mutation, so the early-return paths leave the
caller's value untouched).

The run is modelled as executing from the fresh-load state of the
module's `g`-flagged regexes (`lastIndex = 0` for `RE.NATIVE`, whose
state the run threads through its `serializeFunc` calls, and for the
`RE.GETTER_BROKEN`/`RE.SHORT_BROKEN` test calls); the final regex state
is module state the caller does not observe through the return value.

Steps, in source order: the function-argument check (lines 543-546); the
null/undefined early return `String(obj)` (lines 548-552);
`JSON.stringify` with the replacer — or without it under `isJSON` —
(lines 557-561); the `is.nonEmptyString` sanity check (lines 563-566);
unsafe-character escaping unless `unsafe` (lines 571-573); the
empty-sink early return (lines 575-577); placeholder replacement (line
695); the getter and shorthand fix-up passes (lines 712-718); and the
indentation fix-up (lines 720-723). -/
def serializeRun (options : SerializeOptions) (obj : JSValue) :
    Except JsError String × JSValue :=
  let obj0 := obj
  let obj := if !options.includeFunction && isFunctionV obj then .vUndefined else obj
  if isNullOrUndefinedV obj then (.ok (jsStringOf obj), obj0)
  else
    let (strOpt, post, sinks) :=
      if options.isJSON then (plainStringify obj, obj, ({} : Sinks))
      else stringifyValue options obj ({} : Sinks)
    (finishText options strOpt sinks, post)
where
  /-- `serialize.ts` lines 563-724: everything after `JSON.stringify` is
  a pure function of the encoded text and the sink registry. -/
  finishText (options : SerializeOptions) (strOpt : Option (List Char)) (sinks : Sinks) :
      Except JsError String :=
    match strOpt with
    | none => .ok "undefined"
    | some str =>
      if str = [] then .ok ""
      else
        let str := if !options.unsafeSkipEscape then escapeUnsafeL str else str
        if sinks.isEmpty then .ok (String.mk str)
        else
          match replaceAllPlaceholders options sinks str.length 0 str with
          | .error e => .error e
          | .ok (str, _) =>
            let str :=
              if options.includeGetters && getterBrokenTest str then
                getterBrokenReplace str.length str
              else str
            let str :=
              if shortBrokenTest str then shortBrokenReplace str.length str
              else str
            let indent := getIndentSize options.space
            let str := if indent > 0 then indentFixup indent str.length true str else str
            .ok (String.mk str)

/-- The text `serialize` returns (or the error it raises). -/
def serializeText (options : SerializeOptions) (obj : JSValue) : Except JsError String :=
  (serializeRun options obj).1

/-- The argument graph as the caller observes it after `serialize`
returns. -/
def serializePost (options : SerializeOptions) (obj : JSValue) : JSValue :=
  (serializeRun options obj).2

/-! ## `deserialize` (`src/deserialize.ts`) -/

/-- `is.nonEmptyStringAndNotWhitespace(v)` from the `dis` library used
by `deserialize.ts`: a string that is neither empty nor
whitespace-only.  `List.all` of an empty list is `true`, so the empty
string is rejected by the second conjunct alone. -/
def nonEmptyStringAndNotWhitespace : JSValue → Bool
  | .vStr s => !(s.toList.all isJsSpace)
  | _ => false

/-- `deserialize(encoded)` (`deserialize.ts` lines 8-11 of the current
version): when the argument is not a non-empty, non-whitespace string it
is first passed through `serialize` with the default options, and the
resulting text, wrapped in parentheses, is handed to `eval`.  `eval` is
a pure function of its source text, so the model returns that source
text (or the error `serialize` raised before `eval` could run). -/
def deserializeSource (arg : JSValue) : Except JsError String :=
  let encoded : Except JsError String :=
    if nonEmptyStringAndNotWhitespace arg then .ok (jsStringOf arg)
    else serializeText defaultOptions arg
  match encoded with
  | .ok e => .ok ("(" ++ e ++ ")")
  | .error err => .error err

/-- `deserialize(serialized)` of the earlier revision (lines 7-10):
there the guard is `typeof serialized !== "string"`. -/
def deserializeSourceLegacy (arg : JSValue) : Except JsError String :=
  let encoded : Except JsError String :=
    if isStringV arg then .ok (jsStringOf arg)
    else serializeText defaultOptions arg
  match encoded with
  | .ok e => .ok ("(" ++ e ++ ")")
  | .error err => .error err

/-! ## Values that populate no sink -/

mutual
/-- No function and no undefined value occurs anywhere in `v`: tagging
such a value fills no sink, so reconstruction (and with it
`serializeFunc`) never runs on its serialization. -/
def sinkFree : JSValue → Bool
  | .vFunc _ _ => false
  | .vUndefined => false
  | .vObj fs => sinkFreeFields fs
  | _ => true

/-- see `sinkFree` -/
def sinkFreeFields : JSFields → Bool
  | .nil => true
  | .cons _ v rest => sinkFree v && sinkFreeFields rest
end

/-- Some character of the text is not JavaScript whitespace (the property
`is.nonEmptyStringAndNotWhitespace` tests on a string). -/
def hasNonWs (l : List Char) : Bool := l.any fun c => !isJsSpace c


/-- Substring test: does `needle` occur contiguously inside `hay`? -/
def containsSub (needle hay : List Char) : Bool :=
  hay.tails.any fun t => (expectChars needle t).isSome

/-! ## Helper lemmas -/

/-- The `f.length > 0` guard of `validateRegExpFlags` is the identity:
the function is exactly lowercase, trim, then filter to `dgimsuy`. -/
theorem validateRegExpFlags_eq (s : String) :
    validateRegExpFlags s =
      String.mk ((jsTrimL (s.toList.map Char.toLower)).filter isFlagChar) := by
  unfold validateRegExpFlags
  simp only []
  split
  · rfl
  · next h =>
    have h0 : ((jsTrimL (s.toList.map Char.toLower)).filter isFlagChar).length = 0 := by
      simpa [String.length] using h
    rw [List.length_eq_zero.mp h0]

mutual
/-- With `includeFunction: false`, the traversal leaves the caller's
value exactly as `deleteFunctionsRec` describes: every function-valued
own property of every visited object is deleted. -/
theorem stringifyValue_post (options : SerializeOptions) (h : options.includeFunction = false) :
    ∀ (v : JSValue) (sinks : Sinks),
      (stringifyValue options v sinks).2.1 = deleteFunctionsRec v
  | .vNull, _ => by simp [stringifyValue, deleteFunctionsRec]
  | .vUndefined, _ => by simp [stringifyValue, deleteFunctionsRec]
  | .vBool b, _ => by simp [stringifyValue, deleteFunctionsRec]
  | .vInt n, _ => by simp [stringifyValue, deleteFunctionsRec]
  | .vStr s, _ => by simp [stringifyValue, deleteFunctionsRec]
  | .vFunc name src, _ => by simp [stringifyValue, deleteFunctionsRec]
  | .vObj fields, sinks => by
    have ih := stringifyFields_post options h fields sinks
    simp only [stringifyValue, deleteFunctionsRec]
    rw [← ih]

/-- see `stringifyValue_post` -/
theorem stringifyFields_post (options : SerializeOptions) (h : options.includeFunction = false) :
    ∀ (fs : JSFields) (sinks : Sinks),
      (stringifyFields options fs sinks).2.1 = deleteFunctionsRec.go fs
  | .nil, _ => by simp [stringifyFields, deleteFunctionsRec.go]
  | .cons k v rest, sinks => by
    cases hf : isFunctionV v with
    | true =>
      have ih := stringifyFields_post options h rest sinks
      simp [stringifyFields, deleteFunctionsRec.go, h, hf, ih]
    | false =>
      rcases h1 : stringifyValue options v sinks with ⟨enc, vPost, sinks₁⟩
      rcases h2 : stringifyFields options rest sinks₁ with ⟨parts, restPost, sinks₂⟩
      have ih1 := stringifyValue_post options h v sinks
      have ih2 := stringifyFields_post options h rest sinks₁
      rw [h1] at ih1
      rw [h2] at ih2
      simp only [] at ih1 ih2
      simp only [stringifyFields, h, hf, Bool.not_false, Bool.and_false, if_false,
        deleteFunctionsRec.go, h1, h2]
      cases enc <;> simp [ih1, ih2]
end

/-- Decimal digit characters are not whitespace. -/
theorem jsDigitChar_nonspace (d : Nat) (h : d < 10) : isJsSpace (jsDigitChar d) = false := by
  interval_cases d <;> decide

/-- A rendered number contains a non-whitespace character (its last
digit). -/
theorem jsRadixDigits_hasNonWs (fuel n : Nat) (h : 0 < fuel) :
    hasNonWs (jsRadixDigits 10 fuel n) = true := by
  cases fuel with
  | zero => omega
  | succ fuel =>
    unfold jsRadixDigits
    split
    · next hlt =>
      simp [hasNonWs, jsDigitChar_nonspace n hlt]
    · next hge =>
      simp only [hasNonWs, List.any_append, List.any_cons, List.any_nil]
      have : isJsSpace (jsDigitChar (n % 10)) = false :=
        jsDigitChar_nonspace _ (Nat.mod_lt _ (by norm_num))
      simp [this]

/-- see `jsRadixDigits_hasNonWs` -/
theorem jsIntToL_hasNonWs (n : Int) : hasNonWs (jsIntToL n) = true := by
  unfold jsIntToL
  split
  · have hd : isJsSpace '-' = false := by decide
    simp [hasNonWs, hd]
  · have := jsRadixDigits_hasNonWs (n.natAbs + 1) n.natAbs (Nat.succ_pos _)
    simpa [jsNatToStringBase, hasNonWs] using this

/-- A JSON string literal contains a non-whitespace character (its
opening quote). -/
theorem quoteL_hasNonWs (s : List Char) : hasNonWs (quoteL s) = true := by
  have hq : isJsSpace '"' = false := by decide
  simp [quoteL, hasNonWs, hq]

mutual
/-- Tagging a sink-free value neither mutates it nor pushes to any sink,
and its encoding contains a non-whitespace character. -/
theorem stringifyValue_sinkFree (options : SerializeOptions) :
    ∀ (v : JSValue) (sinks : Sinks), sinkFree v = true →
      ∃ l, stringifyValue options v sinks = (some l, v, sinks) ∧ hasNonWs l = true
  | .vNull, _, _ => ⟨_, rfl, by decide⟩
  | .vBool b, _, _ => ⟨_, rfl, by cases b <;> decide⟩
  | .vInt n, _, _ => ⟨_, rfl, jsIntToL_hasNonWs n⟩
  | .vStr s, _, _ => ⟨_, rfl, quoteL_hasNonWs s.toList⟩
  | .vFunc name src, _, hsf => by simp [sinkFree] at hsf
  | .vUndefined, _, hsf => by simp [sinkFree] at hsf
  | .vObj fields, sinks, hsf => by
    have hf : sinkFreeFields fields = true := by simpa [sinkFree] using hsf
    obtain ⟨parts, hparts⟩ := stringifyFields_sinkFree options fields sinks hf
    refine ⟨'{' :: joinComma parts ++ ['}'], ?_, ?_⟩
    · simp [stringifyValue, hparts]
    · have hb : isJsSpace '{' = false := by decide
      simp [hasNonWs, hb]

/-- see `stringifyValue_sinkFree` -/
theorem stringifyFields_sinkFree (options : SerializeOptions) :
    ∀ (fs : JSFields) (sinks : Sinks), sinkFreeFields fs = true →
      ∃ parts, stringifyFields options fs sinks = (parts, fs, sinks)
  | .nil, _, _ => ⟨[], rfl⟩
  | .cons k v rest, sinks, hsf => by
    have hv : sinkFree v = true := by
      simp [sinkFreeFields] at hsf
      exact hsf.1
    have hr : sinkFreeFields rest = true := by
      simp [sinkFreeFields] at hsf
      exact hsf.2
    have hnf : isFunctionV v = false := by
      cases v <;> simp_all [sinkFree, isFunctionV]
    obtain ⟨l, hl, _⟩ := stringifyValue_sinkFree options v sinks hv
    obtain ⟨parts, hparts⟩ := stringifyFields_sinkFree options rest sinks hr
    refine ⟨(quoteL k.toList ++ ':' :: l) :: parts, ?_⟩
    simp [stringifyFields, hnf, hl, hparts]
end

/-- Unsafe-character escaping maps whitespace to itself and everything
else to non-whitespace text, so it preserves `hasNonWs`. -/
theorem escapeUnsafeL_hasNonWs (l : List Char) (h : hasNonWs l = true) :
    hasNonWs (escapeUnsafeL l) = true := by
  induction l with
  | nil => simp [hasNonWs] at h
  | cons c r ih =>
    simp only [hasNonWs, List.any_cons, Bool.or_eq_true] at h
    simp only [escapeUnsafeL, hasNonWs, List.any_append, Bool.or_eq_true]
    rcases h with hc | hr
    · left
      split
      · next hu =>
        unfold escapeUnsafeChars
        split
        · decide
        · split
          · decide
          · split
            · decide
            · split
              · decide
              · split
                · decide
                · simpa [hasNonWs] using hc
      · simpa [hasNonWs] using hc
    · right
      exact ih hr

/-- `serialize` with the default options succeeds on every sink-free (or
top-level nullish) value and returns a non-empty, non-whitespace text. -/
theorem serializeText_sinkFree_ok (x : JSValue)
    (hs : sinkFree x = true ∨ x = .vNull ∨ x = .vUndefined) :
    ∃ s, serializeText defaultOptions x = .ok s ∧ hasNonWs s.toList = true := by
  rcases hs with hs | rfl | rfl
  · cases hxn : isNullOrUndefinedV x with
    | true =>
      cases x <;> simp_all [isNullOrUndefinedV]
      · exact ⟨"null", rfl, by decide⟩
      · exact ⟨"undefined", rfl, by decide⟩
    | false =>
      obtain ⟨l, hl, hnw⟩ := stringifyValue_sinkFree defaultOptions x ({} : Sinks) hs
      have hxf : isFunctionV x = false := by
        cases x <;> simp_all [sinkFree, isFunctionV]
      have hne : ¬ (l = []) := by
        intro h
        rw [h] at hnw
        simp [hasNonWs] at hnw
      refine ⟨String.mk (escapeUnsafeL l), ?_, ?_⟩
      · have h1 : defaultOptions.includeFunction = true := rfl
        have h2 : defaultOptions.isJSON = false := rfl
        have h3 : defaultOptions.unsafeSkipEscape = false := rfl
        simp [serializeText, serializeRun, serializeRun.finishText, h1, h2, h3, hxf, hxn,
          hl, hne, Sinks.isEmpty]
      · simpa using escapeUnsafeL_hasNonWs l hnw
  · exact ⟨"null", rfl, by decide⟩
  · exact ⟨"undefined", rfl, by decide⟩

/-! ## Claim theorems -/

/-- C1 counterexample: the claim asserts that a top-level `serialize`
invocation and a nested invocation use distinct, freshly generated Run
IDs, so that their placeholder tokens cannot collide.  In the code `UID`
is generated once per module load (`_util.ts` line 5) and shared by every
invocation, so two invocations (here numbered 0 and 1) have equal Run IDs
and produce the identical token for the same category tag and index. -/
theorem c1_counterexample_shared_run_id :
    runIdOfInvocation 0 = runIdOfInvocation 1 ∧
    placeholderTokenOfInvocation 0 "F" 0 = placeholderTokenOfInvocation 1 "F" 0 :=
  ⟨rfl, rfl⟩

/-- C1 (amended): every `serialize` invocation of a load — top-level or
nested — uses the single module-level Run ID generated once when
`_util.ts` is evaluated, and for equal category tag and sink index any
two invocations build the textually identical placeholder token. -/
theorem c1_amended_run_id_shared_across_invocations
    (call₁ call₂ : Nat) (tag : String) (i : Nat) :
    runIdOfInvocation call₁ = runIdOfInvocation call₂ ∧
    placeholderTokenOfInvocation call₁ tag i = placeholderTokenOfInvocation call₂ tag i :=
  ⟨rfl, rfl⟩

/-- C2: the claim says every shorthand-method source — including a bare
`name(...) {}` — is rewritten by the Function Source Normalizer into a
standalone `function` expression and never returned verbatim.  On the
code's own documented example `{key() {}}` (`serialize.ts` line 529) the
rewrite branch is skipped, because line 525 keeps only the tokens of
`RESERVED` and `key` is not one of them, and the original shorthand text
is returned verbatim: `serializeFunc` evaluated at the failing input. -/
theorem c2_bare_shorthand_returned_verbatim :
    serializeFunc defaultOptions "key" "key() {}" = .ok "key() {}" := by rfl

/-- C3: the claim (and the option's own documentation, `serialize.ts`
lines 96-103) says a provided `sortCompareFn` reorders entries regardless
of `sorted`.  `maybeSort` evaluated at the failing input — the entries
`[3, 1, 2]` with a descending comparator and `sorted: false` — returns
the entries unsorted, although the comparator alone would give
`[3, 2, 1]`. -/
theorem c3_comparator_ignored_when_sorted_false :
    maybeSort { defaultOptions with sorted := false, sortCompareFn := some (fun a b => b - a) }
        [3, 1, 2] = [3, 1, 2] ∧
    jsSortWith (fun a b => b - a) [3, 1, 2] = [3, 2, 1] ∧
    ([3, 1, 2] : List Int) ≠ [3, 2, 1] :=
  ⟨rfl, rfl, by decide⟩

/-- C4 counterexample: the claim says `serialize` returns the string
`"undefined"` when the top-level input is null or undefined; for `null`
the code returns `String(null) = "null"` (`serialize.ts` line 551). -/
theorem c4_counterexample_null_serializes_to_null :
    serializeText defaultOptions .vNull = .ok "null" ∧
    serializeText defaultOptions .vNull ≠ .ok "undefined" := by
  refine ⟨rfl, fun h => ?_⟩
  rw [show serializeText defaultOptions .vNull = Except.ok "null" from rfl] at h
  injection h with h
  exact absurd h (by decide)

/-- C4 (amended): for a null or undefined top-level input `serialize`
returns the string `String(input)` — `"null"` for null and `"undefined"`
for undefined — never an actual undefined value. -/
theorem c4_amended_nullish_returns_string_coercion (options : SerializeOptions) (v : JSValue)
    (h : isNullOrUndefinedV v = true) :
    serializeText options v = .ok (jsStringOf v) := by
  cases v <;> simp_all [serializeText, serializeRun, isNullOrUndefinedV, isFunctionV]

/-- C4 witness: the amended theorem applied at the input `null`. -/
theorem c4_amended_witness :
    isNullOrUndefinedV .vNull = true ∧
    serializeText defaultOptions .vNull = .ok "null" :=
  ⟨rfl, c4_amended_nullish_returns_string_coercion defaultOptions .vNull rfl⟩

/-- C5: the claimed policy — every native-matching function is
substituted with `undefined` under `silent` and raises a `TypeError`
otherwise — fails on the code.  `RE.NATIVE` carries the `g` flag
(`_util.ts` line 49), so its `test` keeps `lastIndex` across calls: the
first native function of a load is detected (first conjunct: substituted
under `silent`, with `lastIndex` advanced to 32, the match end), but the
next native function is scanned from position 32, escapes detection,
falls through to the `RE.PURE` branch and is returned verbatim (second
conjunct) — and with `silent: false` no error is raised either (third
conjunct).  From a reset state the same source is detected (fourth
conjunct), which is the claimed — and clearly intended — behaviour; the
stray `g` flag (useless to a `test`-only regex) is the slip.  The last
conjunct evaluates the whole pipeline at the failing input
`serialize({a: Math.max, b: Math.min})`: the returned text contains the
second native source verbatim where the claim requires `undefined`. -/
theorem c5_second_native_function_escapes_detection :
    serializeFuncS defaultOptions "max" "function max() { [native code] }" 0 =
      (.ok "undefined", 32) ∧
    (serializeFuncS defaultOptions "min" "function min() { [native code] }" 32).1 =
      .ok "function min() { [native code] }" ∧
    (serializeFuncS { defaultOptions with silent := false } "min"
        "function min() { [native code] }" 32).1 =
      .ok "function min() { [native code] }" ∧
    (serializeFuncS defaultOptions "min" "function min() { [native code] }" 0).1 =
      .ok "undefined" ∧
    (∃ out,
      serializeText defaultOptions
          (.vObj (.cons "a" (.vFunc "max" "function max() { [native code] }")
            (.cons "b" (.vFunc "min" "function min() { [native code] }") .nil))) =
        .ok out ∧
      containsSub "function min() { [native code] }".toList out.toList = true) :=
  ⟨rfl, rfl, rfl, rfl, ⟨_, rfl, by decide⟩⟩

/-- C6 counterexample: the claim says the validated flag string contains
each flag at most once; on the input `"gg"` the code keeps both copies
(`_util.ts` line 142 filters but never deduplicates). -/
theorem c6_counterexample_duplicate_flags_kept :
    validateRegExpFlags "gg" = "gg" ∧ ((validateRegExpFlags "gg").toList.count 'g') = 2 := by
  constructor
  · rfl
  · decide

/-- C6 (amended): `validateRegExpFlags` lowercases and trims the input
and drops every character outside `dgimsuy`, preserving order (the
output is a sublist of the lowercased, trimmed input): only canonical
flag characters survive, but duplicates are kept — the count of each
flag character equals its count in the lowercased, trimmed input — and
an uppercase flag letter is kept (lowercased) rather than dropped. -/
theorem c6_amended_flags_lowercased_filtered_not_deduped (s : String) :
    (validateRegExpFlags s).toList.all isFlagChar = true ∧
    (validateRegExpFlags s).toList.Sublist (jsTrimL (s.toList.map Char.toLower)) ∧
    (∀ c, isFlagChar c = true →
      (validateRegExpFlags s).toList.count c =
        (jsTrimL (s.toList.map Char.toLower)).count c) := by
  rw [validateRegExpFlags_eq]
  refine ⟨?_, ?_, ?_⟩
  · simp [List.all_eq_true]
  · exact List.filter_sublist _
  · intro c hc
    simp [List.count_filter, hc]

/-- C6 witness: the amended theorem applied at `"Xgg"` and the flag
character `g`. -/
theorem c6_amended_witness :
    (validateRegExpFlags "Xgg").toList.all isFlagChar = true ∧
    (validateRegExpFlags "Xgg").toList.count 'g' =
      (jsTrimL ("Xgg".toList.map Char.toLower)).count 'g' :=
  ⟨(c6_amended_flags_lowercased_filtered_not_deduped "Xgg").1,
   (c6_amended_flags_lowercased_filtered_not_deduped "Xgg").2.2 'g' (by decide)⟩

/-- C7: with the default options, serializing `{x: "</script>"}` yields
a text with no literal `</script>` substring (the `<`, `/`, `>` are
rewritten to their numeric escapes); with `unsafe: true` the literal
substring is present. -/
theorem c7_unsafe_escaping_toggle :
    (∃ out, serializeText defaultOptions (.vObj (.cons "x" (.vStr "</script>") .nil)) = .ok out ∧
      containsSub "</script>".toList out.toList = false) ∧
    (∃ out, serializeText { defaultOptions with unsafeSkipEscape := true }
        (.vObj (.cons "x" (.vStr "</script>") .nil)) = .ok out ∧
      containsSub "</script>".toList out.toList = true) :=
  ⟨⟨_, rfl, by decide⟩, ⟨_, rfl, by decide⟩⟩

/-- C8: with `includeFunction: false` (on the normal, non-`isJSON` path)
`serialize` mutates its argument: the caller's graph afterwards is
`deleteFunctionsRec` of the input — every function-valued own property
of every visited object has been deleted via `deleteFunctions` — and on
an input that has a function-valued property the graph is in fact
changed (second conjunct, at a concrete input). -/
theorem c8_include_function_false_deletes_from_argument
    (options : SerializeOptions) (v : JSValue)
    (h : options.includeFunction = false) (hj : options.isJSON = false) :
    serializePost options v = deleteFunctionsRec v ∧
    serializePost { defaultOptions with includeFunction := false }
        (.vObj (.cons "f" (.vFunc "f" "function f() {}") .nil)) ≠
      .vObj (.cons "f" (.vFunc "f" "function f() {}") .nil) := by
  constructor
  · unfold serializePost serializeRun
    cases hv : isFunctionV v with
    | true =>
      cases v <;> simp_all [isFunctionV, isNullOrUndefinedV, deleteFunctionsRec, h]
    | false =>
      cases hnu : isNullOrUndefinedV v with
      | true =>
        cases v <;> simp_all [isNullOrUndefinedV, deleteFunctionsRec]
      | false =>
        rcases h1 : stringifyValue options v {} with ⟨enc, vPost, sinks⟩
        have ihp := stringifyValue_post options h v {}
        rw [h1] at ihp
        simp only [] at ihp
        simp [h, hj, hnu, hv, h1, ihp]
  · decide

/-- C8 witness: the theorem applied at `{f: function f() {}}` with
`includeFunction: false`. -/
theorem c8_witness :
    serializePost { defaultOptions with includeFunction := false }
        (.vObj (.cons "f" (.vFunc "f" "function f() {}") .nil)) =
      deleteFunctionsRec (.vObj (.cons "f" (.vFunc "f" "function f() {}") .nil)) ∧
    serializePost { defaultOptions with includeFunction := false }
        (.vObj (.cons "f" (.vFunc "f" "function f() {}") .nil)) ≠
      .vObj (.cons "f" (.vFunc "f" "function f() {}") .nil) :=
  c8_include_function_false_deletes_from_argument
    { defaultOptions with includeFunction := false }
    (.vObj (.cons "f" (.vFunc "f" "function f() {}") .nil)) rfl rfl

/-- C9: with `includeFunction: false` a top-level function argument is
rebound to `undefined` (`serialize.ts` lines 543-546) and `serialize`
returns the string `"undefined"` (lines 548-552). -/
theorem c9_function_argument_returns_undefined_string
    (options : SerializeOptions) (name src : String)
    (h : options.includeFunction = false) :
    serializeText options (.vFunc name src) = .ok "undefined" := by
  simp [serializeText, serializeRun, isFunctionV, h, isNullOrUndefinedV, jsStringOf]

/-- C9 witness: the theorem applied at a concrete function value. -/
theorem c9_witness :
    serializeText { defaultOptions with includeFunction := false }
        (.vFunc "f" "function f() {}") = .ok "undefined" :=
  c9_function_argument_returns_undefined_string
    { defaultOptions with includeFunction := false } "f" "function f() {}" rfl

/-- C10: `deserialize` does not fail on a non-string argument: the guard
of `deserialize.ts` first applies `serialize` (default options) to it,
and the text handed to `eval` — `"(" ++ serialized ++ ")"` — is the very
text `deserialize(serialize(x))` evaluates, in the current version
(whose guard also requires the serialized text to be non-empty
non-whitespace, which `serializeText_sinkFree_ok` establishes) and in
the earlier `typeof`-guarded revision.  Since `eval` is a function of
its source text, the two calls return the same value.  The hypothesis
restricts to inputs that populate no sink (or are top-level nullish),
the fragment of the universe on which the serialized text is proved
non-whitespace. -/
theorem c10_deserialize_applies_serialize_to_non_strings (x : JSValue)
    (hx : isStringV x = false)
    (hs : sinkFree x = true ∨ x = .vNull ∨ x = .vUndefined) :
    ∃ s, serializeText defaultOptions x = .ok s ∧
      deserializeSource x = .ok ("(" ++ s ++ ")") ∧
      deserializeSource (.vStr s) = .ok ("(" ++ s ++ ")") ∧
      deserializeSourceLegacy x = .ok ("(" ++ s ++ ")") ∧
      deserializeSourceLegacy (.vStr s) = .ok ("(" ++ s ++ ")") := by
  obtain ⟨s, hok, hnw⟩ := serializeText_sinkFree_ok x hs
  have hxw : nonEmptyStringAndNotWhitespace x = false := by
    cases x <;> simp_all [nonEmptyStringAndNotWhitespace, isStringV]
  have hsw : nonEmptyStringAndNotWhitespace (.vStr s) = true := by
    simp only [nonEmptyStringAndNotWhitespace, Bool.not_eq_true']
    simp only [hasNonWs, List.any_eq_true, Bool.not_eq_true'] at hnw
    obtain ⟨c, hc, hcw⟩ := hnw
    rw [List.all_eq_false]
    exact ⟨c, hc, by simp [hcw]⟩
  refine ⟨s, hok, ?_, ?_, ?_, ?_⟩
  · simp [deserializeSource, hxw, hok]
  · simp [deserializeSource, hsw, jsStringOf]
  · simp [deserializeSourceLegacy, hx, hok]
  · simp [deserializeSourceLegacy, isStringV, jsStringOf]

/-- C10 witness: the theorem applied at the non-string input `{a: 1}`. -/
theorem c10_witness :
    ∃ s, serializeText defaultOptions (.vObj (.cons "a" (.vInt 1) .nil)) = .ok s ∧
      deserializeSource (.vObj (.cons "a" (.vInt 1) .nil)) = .ok ("(" ++ s ++ ")") ∧
      deserializeSource (.vStr s) = .ok ("(" ++ s ++ ")") ∧
      deserializeSourceLegacy (.vObj (.cons "a" (.vInt 1) .nil)) = .ok ("(" ++ s ++ ")") ∧
      deserializeSourceLegacy (.vStr s) = .ok ("(" ++ s ++ ")") :=
  c10_deserialize_applies_serialize_to_non_strings
    (.vObj (.cons "a" (.vInt 1) .nil)) rfl (Or.inl rfl)
